import Mathlib

/-!
Verification of the SAT-algorithms repository (CDCL / DPLL / DP / Resolution
solvers and a Sudoku CNF front-end) against its natural-language specification.

The Python sources are shallowly embedded: each class becomes a structure, each
method a function on that structure; unbounded `while` loops take an explicit
fuel argument and return `none` when the fuel is exhausted (the Python code
would still be running, or would have raised an exception).  Machine integers
are `Int`/`Nat` (Python integers are unbounded, so no wrap-around modelling is
needed); the two floating-point quantities of `cdcl.py` (`restart_threshold`,
`var_activity`) are modelled as `ℚ`, which is exact for every value these
fields take in the scenarios covered here (repeated `*= 1.5`, `+= 1.0`,
`*= 0.95` from integer starting points are exact in binary64 for all reachable
magnitudes relevant to the claims).

Python `dict`s preserve insertion order; they are modelled either as
insertion-ordered association lists (when the key order is observable) or as
functions (when only lookup is observable).  Python `set`s have unspecified
iteration order in general; where the source iterates a set we model it as an
insertion-ordered deduplicated list and say so in a comment at the use site.
-/

/-- Python `dict` key insertion: fold elements into an insertion-ordered list,
keeping the first occurrence of each element (matches `set.add` /
`dict[k] = v` key order for repeatedly added keys). -/
def pyDedup {α : Type} [DecidableEq α] (l : List α) : List α :=
  l.foldl (fun acc x => if x ∈ acc then acc else acc ++ [x]) []

/-- Stable insertion used by `pySort`: `x` is placed before the first element
`y` with `le x y` (so equal-priority elements keep their original order). -/
def stableInsert {α : Type} (le : α → α → Bool) (x : α) : List α → List α
  | [] => [x]
  | y :: ys => if le x y then x :: y :: ys else y :: stableInsert le x ys

/-- Python `list.sort` is a stable sort; a stable sort's output is determined
uniquely by the comparator, so this insertion sort is extensionally equal to
Python's Timsort for every input. -/
def pySort {α : Type} (le : α → α → Bool) : List α → List α
  | [] => []
  | x :: xs => stableInsert le x (pySort le xs)

/-- Lookup in an association list modelling a Python `dict` keyed by `Nat`. -/
def lookupVar (asg : List (Nat × Bool)) (v : Nat) : Option Bool :=
  (asg.find? (fun p => p.1 == v)).map (·.2)

/-- Python `dict.__setitem__`: update in place if the key is present (keeping
its position), otherwise append at the end. -/
def dictSet (asg : List (Nat × Bool)) (v : Nat) (b : Bool) : List (Nat × Bool) :=
  if (asg.find? (fun p => p.1 == v)).isSome then
    asg.map (fun p => if p.1 = v then (v, b) else p)
  else asg ++ [(v, b)]

/-- Python `del dict[k]` for a `Nat`-keyed dict (keys are unique). -/
def dictDel (asg : List (Nat × Bool)) (v : Nat) : List (Nat × Bool) :=
  asg.filter (fun p => p.1 ≠ v)

namespace CDCL

/-- State of `cdcl.py`'s `CDCLSolver`.  Fields follow `__init__` (lines 5-19).
`assignment` is a Python dict mapping *literals* to `True`; only its keys are
observable (every stored value is `True`, see `assign`, line 165), so it is
modelled as the insertion-ordered list of its keys.  `variables` is a Python
set, modelled as an insertion-ordered deduplicated list.  `watch_list` is a
`defaultdict(list)`, modelled as a total function with default `[]`.
`var_info` is a dict from variable to `(decision level, antecedent clause
index)`, modelled as a function returning `none` for absent keys.
`trail_lim` is used by the source purely as a stack (`append`/`pop` at the
right end); it is modelled with the most recently pushed checkpoint at the
head, so the level-0 checkpoint is the *last* element.  The `occurrences`
defaultdict of the source is initialised but never read or written afterwards
and is omitted. -/
structure CDCLSolver where
  clauses : List (List Int)
  /-- The source's `variables` set (the word is reserved in Lean). -/
  vars : List Nat
  assignment : List Int
  decision_level : Nat
  var_info : Nat → Option (Nat × Option Nat)
  watch_list : Int → List Nat
  learned_clauses : List (List Int)
  trail : List Int
  trail_lim : List Nat
  conflict_count : Nat
  restart_threshold : ℚ
  var_activity : Nat → ℚ
  var_order : List Nat

/-- Append a clause index to one literal's watch list (`watch_list[l].append(idx)`). -/
def addWatch (w : Int → List Nat) (l : Int) (idx : Nat) : Int → List Nat :=
  fun x => if x = l then w x ++ [idx] else w x

/-- Replace one literal's watch list wholesale. -/
def setWatch (w : Int → List Nat) (l : Int) (v : List Nat) : Int → List Nat :=
  fun x => if x = l then v else w x

/-- Clause lookup by combined index (lines 112 and 193): original clauses come
first, learned clauses after.  An out-of-range index would raise `IndexError`
in Python; it is modelled as the empty clause (such an access never happens in
the scenarios proved about). -/
def lookup_clause (s : CDCLSolver) (idx : Nat) : List Int :=
  if idx < s.clauses.length then s.clauses.getD idx []
  else s.learned_clauses.getD (idx - s.clauses.length) []

/-- `CDCLSolver.assign` (lines 163-167): insert the literal as an assignment
key (a dict write: no growth if the key is already present), record
`(decision_level, antecedent)` for the variable, and append to the trail. -/
def CDCLSolver.assign (s : CDCLSolver) (var : Nat) (value : Bool) (antecedent : Option Nat) :
    CDCLSolver :=
  let lit : Int := if value then (var : Int) else -(var : Int)
  { s with
    assignment := if lit ∈ s.assignment then s.assignment else s.assignment ++ [lit]
    var_info := fun v => if v = var then some (s.decision_level, antecedent) else s.var_info v
    trail := s.trail ++ [lit] }

/-- Inner `for clause_idx in self.watch_list.get(neg_lit, [])` loop of
`unit_propagation` (lines 111-154).  Returns `Except.error (clause, s)` for
the two `return clause` conflict exits (the pending watch removals are then
skipped, as in the source), or `Except.ok (s, to_remove)` when the loop
completes.  Python's combined satisfied/unassigned scan with an early break on
a satisfied literal (lines 131-139) is equivalent to the separate
satisfied-test and unassigned-filter used here, because the partially built
`unassigned` list is discarded when the clause is satisfied.  The loop body
only ever appends to watch lists of literals other than `neg_lit`, so
iterating over a snapshot of `watch_list[neg_lit]` is faithful whenever the
solver state can actually arise in a run. -/
def upScanWatchers (negLit : Int) (s : CDCLSolver) (toRemove : List (Int × Nat)) :
    List Nat → Except (List Int × CDCLSolver) (CDCLSolver × List (Int × Nat))
  | [] => .ok (s, toRemove)
  | idx :: rest =>
    let clause := lookup_clause s idx
    match clause.find? (fun ol =>
        (!(ol == negLit) && !(s.assignment.contains (ol.natAbs : Int)))
        || (s.assignment.contains (ol.natAbs : Int) && decide (0 < ol))) with
    | some nw =>
        upScanWatchers negLit { s with watch_list := addWatch s.watch_list nw idx }
          (toRemove ++ [(negLit, idx)]) rest
    | none =>
      match clause.find? (fun l => s.assignment.contains (l.natAbs : Int) && decide (0 < l)) with
      | some _ => upScanWatchers negLit s toRemove rest
      | none =>
        let unassigned := clause.filter (fun l => !(s.assignment.contains (l.natAbs : Int)))
        match unassigned with
        | [unitLit] =>
          if s.assignment.contains (unitLit.natAbs : Int) then
            if decide (0 < unitLit) then upScanWatchers negLit s toRemove rest
            else .error (clause, s)
          else
            upScanWatchers negLit (s.assign unitLit.natAbs (decide (0 < unitLit)) (some idx))
              toRemove rest
        | _ => .error (clause, s)

/-- `CDCLSolver.unit_propagation` (lines 101-161).  The loop guard is
`len(self.trail) < len(self.assignment)` (line 102).  Fuel counts loop
iterations; `none` models a still-running loop.  The `next(...)` expression of
line 104 picks the first assignment key whose variable does not occur on the
trail; if there is none Python raises `StopIteration`, modelled as `none`.
Returns `some (conflict?, state)`: `conflict? = some clause` for a
`return clause`, `none` for the normal `return None`. -/
def unit_propagation : Nat → CDCLSolver → Option (Option (List Int) × CDCLSolver)
  | 0, s => if s.trail.length < s.assignment.length then none else some (none, s)
  | fuel+1, s =>
    if s.trail.length < s.assignment.length then
      match s.assignment.find? (fun l => !((s.trail.map Int.natAbs).contains l.natAbs)) with
      | none => none
      | some lit =>
        let negLit := -lit
        match upScanWatchers negLit s [] (s.watch_list negLit) with
        | .error (conflictClause, s1) => some (some conflictClause, s1)
        | .ok (s1, toRemove) =>
          let w := toRemove.foldl
            (fun wl p => if p.2 ∈ wl p.1 then setWatch wl p.1 ((wl p.1).erase p.2) else wl)
            s1.watch_list
          unit_propagation fuel { s1 with watch_list := w }
    else some (none, s)

/-- BFS queue loop of `analyze_conflict` (lines 183-198).  The queue holds
variables; `seen` is the set of already-queued variables; `cur` accumulates
`current_level_lits`.  Fuel counts dequeues (the Python loop always
terminates because every enqueue marks a fresh variable seen; fuel exhaustion
returns the list built so far). -/
def analyzeConflictQueue : Nat → CDCLSolver → List Nat → Finset Nat → List Nat → List Nat
  | 0, _, _, _, cur => cur
  | _+1, _, [], _, cur => cur
  | fuel+1, s, v :: queue, seen, cur =>
    let li := (s.var_info v).getD (0, none)
    let cur' := if li.1 = s.decision_level then cur ++ [v] else cur
    match li.2 with
    | none => analyzeConflictQueue fuel s queue seen cur'
    | some ai =>
      let ac := lookup_clause s ai
      let qs := ac.foldl
        (fun (acc : List Nat × Finset Nat) l =>
          let w := l.natAbs
          if w ≠ v ∧ w ∉ acc.2 then (acc.1 ++ [w], insert w acc.2) else acc)
        (queue, seen)
      analyzeConflictQueue fuel s qs.1 qs.2 cur'

/-- `CDCLSolver.analyze_conflict` (lines 169-211).  The queue is seeded with
the variables of the conflict clause (duplicates and all, line 178-181).  The
chosen `uip` is the *last* collected current-level variable (line 202, the
source's own comment notes this is "simplified").  The learned clause is the
conflict clause with the literals of the `uip` variable filtered out (line
203); `backtrack_level` is the maximum recorded level of the other collected
current-level variables (line 207); Python's `max` over an empty generator
would raise `ValueError`, modelled as 0, and a `var_info` miss would raise
`KeyError`, modelled by the same `(0, None)` default used at line 185. -/
def analyzeConflictFinish (s : CDCLSolver) (conflictClause : List Int) (cur : List Nat) :
    List Int × Nat :=
  match cur with
  | [] => ([], 0)
  | _ =>
    let uip := cur.getLastD 0
    let learned := conflictClause.filter (fun l => l.natAbs ≠ uip)
    let bl :=
      if 1 < cur.length then
        ((cur.filter (fun v => v ≠ uip)).map (fun v => ((s.var_info v).getD (0, none)).1)).foldr
          max 0
      else 0
    (learned, bl)

/-- Composition of the two phases of `analyze_conflict`: seed the queue with
the conflict clause's variables, run the BFS, then build the learned clause
and backjump level from `current_level_lits`. -/
def analyze_conflict (fuel : Nat) (s : CDCLSolver) (conflictClause : List Int) :
    List Int × Nat :=
  let queue := conflictClause.map Int.natAbs
  let seen : Finset Nat := queue.foldl (fun st v => insert v st) ∅
  analyzeConflictFinish s conflictClause (analyzeConflictQueue fuel s queue seen [])

/-- Inner `while len(self.trail) > lim` loop of `backtrack` (lines 218-223):
pop the trail, delete the literal's assignment key and the variable's
`var_info` entry. -/
def popTrail (lim : Nat) (trail : List Int) (assignment : List Int)
    (var_info : Nat → Option (Nat × Option Nat)) :
    List Int × List Int × (Nat → Option (Nat × Option Nat)) :=
  if lim < trail.length then
    match trail.getLast? with
    | some lit =>
        popTrail lim trail.dropLast (assignment.erase lit)
          (fun v => if v = lit.natAbs then none else var_info v)
    | none => (trail, assignment, var_info)
  else (trail, assignment, var_info)
termination_by trail.length
decreasing_by
  simp only [List.length_dropLast]
  omega

/-- Outer `while self.decision_level > level` loop of `backtrack` (lines
213-223), with fuel equal to the starting decision level (the loop decrements
`decision_level` each iteration, so this fuel is exact).  `trail_lim.pop()`
on an empty stack would raise `IndexError`; modelled with a default limit of
0 (never hit under the representation invariant `decision_level =
len(trail_lim)`). -/
def backtrackAux : Nat → CDCLSolver → Nat → CDCLSolver
  | 0, s, _ => s
  | fuel+1, s, level =>
    if level < s.decision_level then
      let lim := s.trail_lim.headD 0
      let tav := popTrail lim s.trail s.assignment s.var_info
      backtrackAux fuel
        { s with
          decision_level := s.decision_level - 1
          trail_lim := s.trail_lim.tail
          trail := tav.1
          assignment := tav.2.1
          var_info := tav.2.2 } level
    else s

/-- `CDCLSolver.backtrack` (lines 213-223). -/
def backtrack (s : CDCLSolver) (level : Nat) : CDCLSolver :=
  backtrackAux s.decision_level s level

/-- `CDCLSolver.select_variable` (lines 225-233): VSIDS-style pick.  The
stable sort by descending activity is `pySort` (see there); `unassigned[0]`
is the head. -/
def select_variable (s : CDCLSolver) : Option Nat :=
  match s.var_order.filter (fun (v : Nat) => !(s.assignment.contains (v : Int))) with
  | [] => none
  | us => (pySort (fun a b => decide (s.var_activity b ≤ s.var_activity a)) us).head?

/-- `CDCLSolver.bump_activity` (lines 235-244): bump every variable of the
learned clause by 1.0, then decay all activities by 0.95 every 100 conflicts.
Python iterates the keys of the `var_activity` dict for the decay; the
function model multiplies everywhere (absent keys carry the default 0, and
0 * 0.95 = 0). -/
def bump_activity (s : CDCLSolver) (clause : List Int) : CDCLSolver :=
  let act := clause.foldl
    (fun a l => fun v => if v = l.natAbs then a v + 1 else a v) s.var_activity
  if s.conflict_count % 100 = 0 then
    { s with var_activity := fun v => act v * (19/20 : ℚ) }
  else { s with var_activity := act }

/-- `CDCLSolver.add_clause` (lines 246-254): append to `learned_clauses`,
then register the clause's first one or two literals in the watch index at
the combined index `len(clauses) + len(learned_clauses) - 1` (computed
*after* the append, lines 251 and 254). -/
def add_clause (s : CDCLSolver) (clause : List Int) : CDCLSolver :=
  let s1 := { s with learned_clauses := s.learned_clauses ++ [clause] }
  match clause with
  | [] => s1
  | [l1] =>
    { s1 with watch_list :=
        addWatch s1.watch_list l1 (s1.clauses.length + s1.learned_clauses.length - 1) }
  | l1 :: l2 :: _ =>
    let idx := s1.clauses.length + s1.learned_clauses.length - 1
    { s1 with watch_list := addWatch (addWatch s1.watch_list l1 idx) l2 idx }

/-- Lines 72-74 of the driver: `learned_clauses.append(learned_clause)`
followed by `add_clause(learned_clause)` (which appends the same clause a
second time). -/
def learnAndAdd (s : CDCLSolver) (learned : List Int) : CDCLSolver :=
  add_clause { s with learned_clauses := s.learned_clauses ++ [learned] } learned

/-- Lines 80-83 of the driver: if the conflict count has reached the restart
threshold, grow the threshold by the factor 1.5 and backtrack to level 0. -/
def restartIfNeeded (s : CDCLSolver) : CDCLSolver :=
  if s.restart_threshold ≤ (s.conflict_count : ℚ) then
    backtrack { s with restart_threshold := s.restart_threshold * (3/2) } 0
  else s

/-- The conflict branch of the driver below the level-0 test (lines 71-83):
analyse, double-append the learned clause, backtrack, bump activities, maybe
restart.  `afuel` is the fuel for the conflict-analysis queue. -/
def conflictApply (afuel : Nat) (s : CDCLSolver) (conflictClause : List Int) : CDCLSolver :=
  let s2 := { s with conflict_count := s.conflict_count + 1 }
  let lb := analyze_conflict afuel s2 conflictClause
  let s3 := learnAndAdd s2 lb.1
  let s4 := backtrack s3 lb.2
  let s5 := bump_activity s4 lb.1
  restartIfNeeded s5

/-- The decision branch of the driver (lines 94-99): open a new decision
level, push the trail checkpoint, and assign the chosen variable `True` with
no antecedent. -/
def decisionApply (s : CDCLSolver) (v : Nat) : CDCLSolver :=
  ({ s with
      decision_level := s.decision_level + 1
      trail_lim := s.trail.length :: s.trail_lim }).assign v true none

/-- `CDCLSolver.cdcl` (lines 60-99), the main driver loop, fuel-counted.
Each iteration: propagate; on conflict bump the conflict count, return
`False` at level 0, otherwise learn/backjump/bump/restart; with no conflict,
return `True` when every variable is an assignment key or no variable is
left unassigned, else take a decision.  The final solver state is returned
alongside the verdict (Python keeps it in `self`). -/
def cdcl : Nat → CDCLSolver → Option (Bool × CDCLSolver)
  | 0, _ => none
  | fuel+1, s =>
    match unit_propagation (fuel+1) s with
    | none => none
    | some (some conflictClause, s1) =>
      if s1.decision_level = 0 then
        some (false, { s1 with conflict_count := s1.conflict_count + 1 })
      else cdcl fuel (conflictApply (fuel+1) s1 conflictClause)
    | some (none, s1) =>
      if s1.vars.all (fun v => s1.assignment.contains (v : Int)) then some (true, s1)
      else
        match select_variable s1 with
        | none => some (true, s1)
        | some v => cdcl fuel (decisionApply s1 v)

/-- `CDCLSolver.parse_dimacs` (lines 21-37) at the clause-list level (the
spec places DIMACS lexing out of scope: each element of `input` is the list
of integers of one clause line with the terminating `0` token already
stripped, exactly what `line.split()[:-1]` yields).  Literals equal to 0 are
skipped (line 30-31); variables are added per literal; an empty clause is
*dropped* by the `if clause:` guard (line 35).  `initialize_data_structures`
(lines 39-52) then builds `var_order` and registers each clause's first one
or two literals in the watch index. -/
def parse_dimacs (input : List (List Int)) : CDCLSolver :=
  let cv := input.foldl
    (fun (acc : List (List Int) × List Nat) line =>
      let clause := line.filter (fun l => l ≠ 0)
      let vars := clause.foldl
        (fun vs l => if l.natAbs ∈ vs then vs else vs ++ [l.natAbs]) acc.2
      if clause.isEmpty then (acc.1, vars) else (acc.1 ++ [clause], vars))
    ([], [])
  let watch := (cv.1.enum.foldl
    (fun w ci =>
      match ci.2 with
      | [] => w
      | [l1] => addWatch w l1 ci.1
      | l1 :: l2 :: _ => addWatch (addWatch w l1 ci.1) l2 ci.1)
    (fun _ => []))
  { clauses := cv.1
    vars := cv.2
    assignment := []
    decision_level := 0
    var_info := fun _ => none
    watch_list := watch
    learned_clauses := []
    trail := []
    trail_lim := []
    conflict_count := 0
    restart_threshold := 100
    var_activity := fun _ => 0
    var_order := cv.2 }

/-- Modelled from the spec: clause evaluation under the CDCL solver's
literal-keyed assignment map, as used by round-trip law (R1).  A literal is
TRUE exactly when it is one of the assignment's keys (every key of
`CDCLSolver.assignment` is a literal whose stored value is `True`); a clause
is TRUE when some literal of it is. -/
def clauseTrue (asg : List Int) (c : List Int) : Bool :=
  c.any (fun l => asg.contains l)

/-- One state-to-state iteration of the `cdcl` driver loop (lines 60-99): a
decision (propagation found no conflict, not all variables assigned, a
variable was selected), a handled conflict at positive decision level
(propagation returned a conflict clause; the level-0 case returns and is not
a step), or a call to `backtrack` (covering the driver's backjump and restart
backtracks as free-standing steps).  `f` and `afuel` are the fuel values of
the embedded loops. -/
inductive DriverStep : CDCLSolver → CDCLSolver → Prop
  | decision (s s1 : CDCLSolver) (f : Nat) (v : Nat)
      (hup : unit_propagation f s = some (none, s1))
      (hall : s1.vars.all (fun w => s1.assignment.contains (w : Int)) = false)
      (hsel : select_variable s1 = some v) :
      DriverStep s (decisionApply s1 v)
  | conflict (s s1 : CDCLSolver) (f afuel : Nat) (cc : List Int)
      (hup : unit_propagation f s = some (some cc, s1))
      (hdl : s1.decision_level ≠ 0) :
      DriverStep s (conflictApply afuel { s1 with conflict_count := s1.conflict_count + 1 } cc)
  | backtrackStep (s : CDCLSolver) (level : Nat) :
      DriverStep s (backtrack s level)

/-- The solver states reachable by the driver from a freshly parsed input. -/
def Reachable (input : List (List Int)) (s : CDCLSolver) : Prop :=
  Relation.ReflTransGen DriverStep (parse_dimacs input) s

/-- The trail/assignment coherence invariant: the assignment's key list *is*
the trail (hence equal lengths), and the trail never repeats a literal. -/
def Coherent (s : CDCLSolver) : Prop :=
  s.assignment = s.trail ∧ s.trail.Nodup

/-- A concrete conflict-analysis situation: decision `1` at level 1, `2`
implied by clause 0 (`¬1 ∨ 2`), `3` implied by clause 1 (`¬2 ∨ 3`), and
clause 2 (`¬1 ∨ ¬3`) falsified — the state `analyze_conflict` would see had
`unit_propagation` worked. -/
def conflictState : CDCLSolver :=
  { clauses := [[-1, 2], [-2, 3], [-1, -3]]
    vars := [1, 2, 3]
    assignment := [1, 2, 3]
    decision_level := 1
    var_info := fun v =>
      if v = 1 then some (1, none)
      else if v = 2 then some (1, some 0)
      else if v = 3 then some (1, some 1)
      else none
    watch_list := fun _ => []
    learned_clauses := []
    trail := [1, 2, 3]
    trail_lim := [0]
    conflict_count := 1
    restart_threshold := 100
    var_activity := fun _ => 0
    var_order := [1, 2, 3] }

/-- A concrete mid-search state used to exercise the restart fragment: one
decision (`-2`) above a level-0 assignment (`1`), with the conflict count at
the threshold. -/
def restartState : CDCLSolver :=
  { conflictState with
    assignment := [1, -2]
    trail := [1, -2]
    trail_lim := [1]
    decision_level := 1
    conflict_count := 100 }

end CDCL

namespace DP

/-- State of `dp.py`'s `Solver` (lines 4-9).  `assignment` is a dict from
variable to Boolean, modelled as an insertion-ordered association list;
`variables` is a set, modelled as an insertion-ordered deduplicated list
(CPython's set iteration order is unspecified; only `select_variable` and the
final emptiness test observe it, and insertion order is used here).
`pure_lits` is a set of literals (its members always have pairwise distinct
variables, so its iteration order is immaterial). -/
structure Solver where
  clauses : List (List Int)
  vars : List Nat
  assignment : List (Nat × Bool)
  pure_lits : List Int

/-- `Solver.parse_dimacs` (lines 11-26) at the clause-list level, exactly as
for the CDCL solver: zero literals are skipped and empty clauses are dropped
by the `if clause:` guard (line 25). -/
def parse_dimacs (input : List (List Int)) : Solver :=
  let cv := input.foldl
    (fun (acc : List (List Int) × List Nat) line =>
      let clause := line.filter (fun l => l ≠ 0)
      let vars := clause.foldl
        (fun vs l => if l.natAbs ∈ vs then vs else vs ++ [l.natAbs]) acc.2
      if clause.isEmpty then (acc.1, vars) else (acc.1 ++ [clause], vars))
    ([], [])
  { clauses := cv.1, vars := cv.2, assignment := [], pure_lits := [] }

/-- `Solver.unit_propagation` (lines 54-90): collect the first literal of
every unit clause, assign each unassigned one (an assigned variable is left
alone whether consistent or conflicting — "contradiction will be caught
later", line 65), and if anything changed rebuild the clause list, dropping
satisfied clauses and removing falsified literals.  Python's per-clause loop
breaks early on a satisfied literal, discarding the partial `new_clause`;
the separate any/filter used here is equivalent. -/
def Solver.unit_propagation (s : Solver) : Bool × Solver :=
  let unitClauses := (s.clauses.filter (fun c => c.length = 1)).map (fun c => c.headD (0 : Int))
  let ca := unitClauses.foldl
    (fun (acc : Bool × List (Nat × Bool)) (lit : Int) =>
      let var := lit.natAbs
      match lookupVar acc.2 var with
      | some _ => acc
      | none => (true, dictSet acc.2 var (decide (0 < lit))))
    (false, s.assignment)
  if !ca.1 then (false, s)
  else
    let newClauses := s.clauses.filterMap (fun clause =>
      if clause.any (fun l =>
          match lookupVar ca.2 l.natAbs with
          | some b => b = decide (0 < l)
          | none => false) then none
      else some (clause.filter (fun l => (lookupVar ca.2 l.natAbs).isNone)))
    (true, { s with assignment := ca.2, clauses := newClauses })

/-- `Solver.contradiction_found` (lines 165-169): an empty clause is present. -/
def Solver.contradiction_found (s : Solver) : Bool :=
  s.clauses.any (fun c => c.isEmpty)

/-- `Solver.find_pure_literals` (lines 92-102): the literals occurring in the
clause set (dict-key order: first occurrence) whose negation does not occur. -/
def Solver.find_pure_literals (s : Solver) : List Int :=
  let occurring := pyDedup s.clauses.flatten
  occurring.filter (fun l => -l ∉ s.clauses.flatten)

/-- `Solver.apply_pure_literals` (lines 104-124): assign every pure literal,
discard its variable, drop every clause mentioning a pure variable, and clear
`pure_lits`. -/
def Solver.apply_pure_literals (s : Solver) : Solver :=
  let pureVars := s.pure_lits.map Int.natAbs
  let asg := s.pure_lits.foldl (fun a l => dictSet a l.natAbs (decide (0 < l))) s.assignment
  { clauses := s.clauses.filter (fun c => c.all (fun l => l.natAbs ∉ pureVars))
    vars := s.vars.filter (fun v => v ∉ pureVars)
    assignment := asg
    pure_lits := [] }

/-- `Solver.apply_variable_elimination` (lines 129-163): replace the clauses
mentioning `var` by all resolvents on `var` (literals of `var` dropped, the
positive clause's literals first, first-occurrence deduplication within the
resolvent, then sorted ascending and deduplicated against the resolvents
produced so far — Python keeps a `resolved` set and a `new_clauses` list
whose contents coincide, a single accumulator here), then remove `var` from
the variable set. -/
def Solver.apply_variable_elimination (s : Solver) (var : Nat) : Solver :=
  let v : Int := (var : Int)
  let pos := s.clauses.filter (fun c => v ∈ c)
  let neg := s.clauses.filter (fun c => (-v) ∈ c)
  let resolvents := pos.foldl
    (fun acc pc =>
      neg.foldl
        (fun acc nc =>
          let resolvent := pyDedup ((pc ++ nc).filter (fun l => l.natAbs ≠ var))
          let rt := pySort (fun a b => decide (a ≤ b)) resolvent
          if rt ∈ acc then acc else acc ++ [rt])
        acc)
    []
  { s with
    clauses := resolvents ++ s.clauses.filter (fun c => v ∉ c ∧ (-v) ∉ c)
    vars := s.vars.filter (fun w => w ≠ var) }

/-- `Solver.select_variable` (lines 126-127): `next(iter(self.variables))`,
modelled as the head of the insertion-ordered variable list. -/
def Solver.select_variable (s : Solver) : Nat :=
  s.vars.headD 0

/-- The inner `while changed` propagation loop of `Solver.solve` (lines
33-38): run `unit_propagation`, return `False` on contradiction (even when
nothing changed), loop while changed.  `some (some false, s)` is the early
`return False`; `some (none, s)` falls through to the rest of the loop body. -/
def propagationLoop : Nat → Solver → Option (Option Bool × Solver)
  | 0, _ => none
  | fuel+1, s =>
    let cs := s.unit_propagation
    if cs.2.contradiction_found then some (some false, cs.2)
    else if cs.1 then propagationLoop fuel cs.2
    else some (none, cs.2)

/-- `Solver.solve` (lines 28-52), fuel-counted outer `while True` loop:
propagate to fixpoint (returning UNSAT on contradiction), eliminate pure
literals and restart the loop if any were found, return SAT when no
variables remain, else eliminate the selected variable by resolution. -/
def solve : Nat → Solver → Option (Bool × Solver)
  | 0, _ => none
  | fuel+1, s =>
    match propagationLoop (fuel+1) s with
    | none => none
    | some (some r, s1) => some (r, s1)
    | some (none, s1) =>
      let s2 := { s1 with pure_lits := s1.find_pure_literals }
      if !s2.pure_lits.isEmpty then solve fuel s2.apply_pure_literals
      else if s2.vars.isEmpty then some (true, s2)
      else solve fuel (s2.apply_variable_elimination s2.select_variable)

end DP

namespace DPLL

/-- State of `dpll.py`'s `DPLLSolver` (lines 4-11).  `unit_clauses` is a
Python set of literals popped in unspecified order; it is modelled as an
insertion-ordered deduplicated list popped at the head (every verdict proved
below about a concrete input is independent of the pop order).
`occurrences` is a `defaultdict(int)` whose *values* are never read — only
key membership and key iteration are — so it is modelled as its
insertion-ordered key list.  `watch_list` is modelled as a function with
default `[]`; `del watch_list[lit]` becomes setting that entry to `[]`
(indistinguishable from key removal through `get(lit, [])` and the later
guarded deletes). -/
structure DPLLSolver where
  clauses : List (List Int)
  vars : List Nat
  assignment : List (Nat × Bool)
  unit_clauses : List Int
  watch_list : Int → List Nat
  occurrences : List Int

/-- `DPLLSolver.parse_dimacs` (lines 13-30) at the clause-list level: as for
the other solvers, plus every kept unit clause's literal is added to the
`unit_clauses` set. -/
def parse_dimacs (input : List (List Int)) : DPLLSolver :=
  let acc := input.foldl
    (fun (acc : List (List Int) × List Nat × List Int) line =>
      let clause := line.filter (fun l => l ≠ 0)
      let vars := clause.foldl
        (fun vs l => if l.natAbs ∈ vs then vs else vs ++ [l.natAbs]) acc.2.1
      if clause.isEmpty then (acc.1, vars, acc.2.2)
      else
        (acc.1 ++ [clause], vars,
          match clause with
          | [u] => if u ∈ acc.2.2 then acc.2.2 else acc.2.2 ++ [u]
          | _ => acc.2.2))
    ([], [], [])
  { clauses := acc.1, vars := acc.2.1, assignment := [], unit_clauses := acc.2.2
    watch_list := fun _ => [], occurrences := [] }

/-- Clause-visiting loop of `dpll`'s unit propagation (lines 69-97): for
each clause watching the *satisfied* literal `lit` (the source processes
`watch_list[lit]`, not `watch_list[-lit]`), look for another watchable
literal; if none, enqueue a unit literal or report a conflict (`return
False`).  Threads the growing `unit_clauses` list; `.error` is the conflict
exit. -/
def visitWatchers (s : DPLLSolver) (lit : Int) :
    List Nat → List Int → Except Unit (List Int)
  | [], units => .ok units
  | idx :: rest, units =>
    let clause := s.clauses.getD idx []
    match clause.find? (fun ol =>
        !(ol == lit) &&
          (((lookupVar s.assignment ol.natAbs).isNone)
            || (lookupVar s.assignment ol.natAbs == some (decide (0 < ol))))) with
    | some _ => visitWatchers s lit rest units
    | none =>
      match clause.find? (fun l => lookupVar s.assignment l.natAbs == some (decide (0 < l))) with
      | some _ => visitWatchers s lit rest units
      | none =>
        match clause.filter (fun l => (lookupVar s.assignment l.natAbs).isNone) with
        | [u] => visitWatchers s lit rest (if u ∈ units then units else units ++ [u])
        | [] => .error ()
        | _ => visitWatchers s lit rest units

/-- The `while self.unit_clauses` loop of `dpll` (lines 55-103): pop a
literal, return `False` on an inconsistent existing assignment, otherwise
assign it, visit the clauses watching it, and delete the watch lists of the
literal and its negation.  `some (false, s)` is a `return False` exit;
`some (true, s)` means the queue emptied and control falls through. -/
def unitLoop : Nat → DPLLSolver → Option (Bool × DPLLSolver)
  | 0, _ => none
  | fuel+1, s =>
    match s.unit_clauses with
    | [] => some (true, s)
    | lit :: rest =>
      let s0 := { s with unit_clauses := rest }
      let var := lit.natAbs
      let value := decide (0 < lit)
      match lookupVar s0.assignment var with
      | some b => if b ≠ value then some (false, s0) else unitLoop fuel s0
      | none =>
        let s1 := { s0 with assignment := dictSet s0.assignment var value }
        match visitWatchers s1 lit (s1.watch_list lit) s1.unit_clauses with
        | .error _ => some (false, s1)
        | .ok units =>
          unitLoop fuel
            { s1 with
              unit_clauses := units
              watch_list := CDCL.setWatch (CDCL.setWatch s1.watch_list lit []) (-lit) [] }

/-- `DPLLSolver.dpll` (lines 53-154), fuel-counted: propagate the unit
queue; eliminate pure literals (literals whose negation never occurs in the
*original* clause list snapshot held by `occurrences`); return `True` if
every clause is satisfied or no variable is unassigned; else branch on the
first unassigned variable (iterating the insertion-ordered variable list),
trying `True` then `False`, undoing the branch assignment on failure.
Mutations made by a failed recursive call persist except for that deletion,
exactly as in the source (`self` is shared). -/
def dpll : Nat → DPLLSolver → Option (Bool × DPLLSolver)
  | 0, _ => none
  | fuel+1, s =>
    match unitLoop (fuel+1) s with
    | none => none
    | some (false, s1) => some (false, s1)
    | some (true, s1) =>
      let pure := s1.occurrences.filter (fun l => -l ∉ s1.occurrences)
      let asg := pure.foldl
        (fun a l =>
          if (lookupVar a l.natAbs).isSome then a else dictSet a l.natAbs (decide (0 < l)))
        s1.assignment
      let s2 := { s1 with assignment := asg }
      if s2.clauses.all (fun c => c.any (fun l =>
          lookupVar s2.assignment l.natAbs == some (decide (0 < l)))) then
        some (true, s2)
      else
        match s2.vars.filter (fun v => (lookupVar s2.assignment v).isNone) with
        | [] => some (true, s2)
        | var :: _ =>
          match dpll fuel { s2 with assignment := dictSet s2.assignment var true } with
          | none => none
          | some (true, s3) => some (true, s3)
          | some (false, s3) =>
            let s4 := { s3 with assignment := dictSet (dictDel s3.assignment var) var false }
            match dpll fuel s4 with
            | none => none
            | some (true, s5) => some (true, s5)
            | some (false, s5) => some (false, { s5 with assignment := dictDel s5.assignment var })

/-- `DPLLSolver.solve` (lines 32-51) without the timing: register each
clause's first one or two literals in the watch index, build the
`occurrences` keys, and run `dpll`. -/
def solve (fuel : Nat) (s : DPLLSolver) : Option (Bool × DPLLSolver) :=
  let watch := (s.clauses.enum.foldl
    (fun w ci =>
      match ci.2 with
      | [] => w
      | [l1] => CDCL.addWatch w l1 ci.1
      | l1 :: l2 :: _ => CDCL.addWatch (CDCL.addWatch w l1 ci.1) l2 ci.1)
    s.watch_list)
  dpll fuel { s with watch_list := watch, occurrences := pyDedup s.clauses.flatten }

end DPLL

namespace Resolution

/-- `resolution.py`'s `Literal` (lines 5-23): a name with a negation flag.
Hashing/equality are by `(name, negated)`, so `DecidableEq` is derived. -/
structure Literal where
  name : String
  negated : Bool
deriving DecidableEq

/-- `Literal.negate` (lines 22-23). -/
def Literal.negate (l : Literal) : Literal :=
  { name := l.name, negated := !l.negated }

/-- `resolution.py`'s `Clause` (lines 25-39) is a `frozenset` of literals. -/
abbrev Clause := Finset Literal

/-- `Clause.is_tautology` (lines 44-50): some pair of literals shares a name
with opposite polarity.  Python scans pairs `i < j`; since two literals
satisfy `name` equal and `negated` different exactly when one is the
`negate` of the other (and a frozenset never holds duplicates), this is
equivalent to: some literal's negation is also in the clause. -/
def isTautology (c : Clause) : Bool :=
  decide (∃ a ∈ c, a.negate ∈ c)

/-- `Clause.resolve` (lines 52-61): all non-tautological resolvents obtained
by cancelling one complementary literal pair of the two clauses. -/
def resolve (c1 c2 : Clause) : Finset Clause :=
  (c1 ×ˢ c2).biUnion (fun p =>
    if p.1.name = p.2.name ∧ p.1.negated ≠ p.2.negated then
      let nc : Clause := c1.erase p.1 ∪ c2.erase p.2
      if isTautology nc then ∅ else {nc}
    else ∅)

/-- The set of resolvents of one full round of `resolution_solver`'s pair loop
(lines 102-107).  Python's `combinations(clauses, 2)` enumerates each
unordered pair of distinct clauses once; `resolve` is symmetric in its two
arguments, so ranging over ordered distinct pairs (`offDiag`) produces the
same set. -/
def roundResolvents (cs : Finset Clause) : Finset Clause :=
  cs.offDiag.biUnion (fun p => resolve p.1 p.2)

/-- The `while True` loop of `resolution_solver` (lines 101-113),
fuel-counted: return `False` as soon as an empty resolvent is generated in
the current round (Python returns mid-loop; whether the round is cut short
does not change the returned value, only the discarded `new` set), `True`
when the round's resolvents are all already present, else add them and loop. -/
def resolutionLoop : Nat → Finset Clause → Option Bool
  | 0, _ => none
  | fuel+1, cs =>
    let nw := roundResolvents cs
    if ∅ ∈ nw then some false
    else if nw ⊆ cs then some true
    else resolutionLoop fuel (cs ∪ nw)

/-- `resolution_solver` (lines 96-113): drop tautological input clauses, form
the clause set, and run the saturation loop. -/
def resolution_solver (fuel : Nat) (input : List Clause) : Option Bool :=
  resolutionLoop fuel (input.filter (fun c => !(isTautology c))).toFinset

/-- `resolution.py`'s `parse_dimacs` (lines 63-80) at the clause-list level:
a literal `k` becomes `Literal(str(abs(k)), k < 0)`; zero literals are
skipped and empty clauses dropped by the `if literals:` guard. -/
def parse_dimacs (input : List (List Int)) : List Clause :=
  input.foldl
    (fun acc line =>
      let lits := (line.filter (fun l => l ≠ 0)).map
        (fun (l : Int) => ({ name := toString l.natAbs, negated := decide (l < 0) } : Literal))
      if lits.isEmpty then acc else acc ++ [lits.toFinset])
    []

/-- The clause set reached after `n` full rounds, each adding the round's
resolvents (the state of `clauses` at the top of the loop, lines 112-113). -/
def roundIter : Nat → Finset Clause → Finset Clause
  | 0, cs => cs
  | n+1, cs => roundIter n (cs ∪ roundResolvents cs)

end Resolution

namespace Sudoku

/-- The Sudoku variable encoding of `encode_sudoku` (`sudoku_dp.py`, e.g.
line 162): `v(row, col, num) = row*n*n + col*n + num + 1` for an `n × n`
grid, with `row, col, num ∈ [0, n)`. -/
def encodeVar (n row col num : Nat) : Nat :=
  row * n * n + col * n + num + 1

/-- The decoding performed by `solve_sudoku_dp` (`sudoku_dp.py`, lines
222-226) on each true variable `v`: `var_idx = v - 1`, then
`num = var_idx % n + 1`, `col = (var_idx // n) % n`, `row = var_idx //
(n*n)`.  Returned as `(row, col, num)`. -/
def decodeVar (n v : Nat) : Nat × Nat × Nat :=
  let varIdx := v - 1
  (varIdx / (n * n), (varIdx / n) % n, varIdx % n + 1)

end Sudoku

/-! ## Theorems -/

section ClaimTheorems

open CDCL

/-- Claim C1 (falsified by the code): spec law (R1) demands that whenever a
solver's `solve` returns SAT, the reported assignment evaluates every input
clause to TRUE.  The CDCL solver violates this: on the input `{1}, {¬1}` it
answers SAT (its `unit_propagation` never propagates, see C6) with the
assignment `{1 ↦ True}`, under which the input clause `[-1]` evaluates to
FALSE. -/
theorem cdcl_sat_model_unsound :
    (cdcl 4 (parse_dimacs [[1], [-1]])).map Prod.fst = some true ∧
    (cdcl 4 (parse_dimacs [[1], [-1]])).map
      (fun r => clauseTrue r.2.assignment [-1]) = some false ∧
    [-1] ∈ (parse_dimacs [[1], [-1]]).clauses := by
  refine ⟨rfl, rfl, ?_⟩
  decide

/-- Claim C2 (falsified by the code): the four strategies do not agree.  On
the two-clause input `{1}, {¬1}` CDCL answers SAT while Resolution, DP and
DPLL all answer UNSAT. -/
theorem solver_verdicts_disagree :
    (cdcl 4 (CDCL.parse_dimacs [[1], [-1]])).map Prod.fst = some true ∧
    Resolution.resolution_solver 2 (Resolution.parse_dimacs [[1], [-1]]) = some false ∧
    (DP.solve 5 (DP.parse_dimacs [[1], [-1]])).map Prod.fst = some false ∧
    (DPLL.solve 5 (DPLL.parse_dimacs [[1], [-1]])).map Prod.fst = some false := by
  refine ⟨rfl, by decide, rfl, rfl⟩

/-- Claim C3 (falsified by the code): an input containing the empty clause
must yield UNSAT, but `parse_dimacs` silently *drops* empty clauses (the
`if clause:` guard, line 35), so the single-empty-clause input parses to no
clauses at all and the CDCL solver answers SAT. -/
theorem cdcl_empty_clause_dropped :
    (CDCL.parse_dimacs [[]]).clauses = [] ∧
    (cdcl 2 (CDCL.parse_dimacs [[]])).map Prod.fst = some true := by
  exact ⟨rfl, rfl⟩

/-- Claim C4 (falsified by the code): on `{l}, {¬l}` (here `l = 1`) the CDCL
solver is supposed to answer UNSAT at level 0 by propagation with no
decision; instead it answers SAT, takes one decision (final decision level
1), and never records a conflict. -/
theorem cdcl_unit_conflict_missed :
    (cdcl 4 (CDCL.parse_dimacs [[1], [-1]])).map Prod.fst = some true ∧
    (cdcl 4 (CDCL.parse_dimacs [[1], [-1]])).map
      (fun r => r.2.decision_level) = some 1 ∧
    (cdcl 4 (CDCL.parse_dimacs [[1], [-1]])).map
      (fun r => r.2.conflict_count) = some 0 := by
  exact ⟨rfl, rfl, rfl⟩

end ClaimTheorems

section ClaimC5

open CDCL

/-- Every variable the conflict-analysis queue loop adds to
`current_level_lits` has recorded level equal to the current decision level
(it is appended only under that exact test, line 187-188). -/
lemma analyzeConflictQueue_level (s : CDCLSolver) :
    ∀ (fuel : Nat) (queue : List Nat) (seen : Finset Nat) (cur : List Nat),
      (∀ v ∈ cur, ((s.var_info v).getD (0, none)).1 = s.decision_level) →
      ∀ v ∈ analyzeConflictQueue fuel s queue seen cur,
        ((s.var_info v).getD (0, none)).1 = s.decision_level := by
  intro fuel
  induction fuel with
  | zero => intro queue seen cur h; simpa [analyzeConflictQueue] using h
  | succ n ih =>
    intro queue seen cur h
    match queue with
    | [] => simpa [analyzeConflictQueue] using h
    | v :: queue =>
      have hcur' : ∀ x ∈ (if ((s.var_info v).getD (0, none)).1 = s.decision_level
          then cur ++ [v] else cur),
          ((s.var_info x).getD (0, none)).1 = s.decision_level := by
        split
        · intro x hx
          rcases List.mem_append.1 hx with hx | hx
          · exact h x hx
          · rw [List.mem_singleton.1 hx]; assumption
        · exact h
      simp only [analyzeConflictQueue]
      split
      · exact ih queue seen _ hcur'
      · exact ih _ _ _ hcur'

/-- A fold of `max` over a list whose members all equal `d` yields 0 (empty
list) or `d`. -/
lemma foldr_max_of_all_eq (d : Nat) : ∀ (l : List Nat), (∀ x ∈ l, x = d) →
    l.foldr max 0 = 0 ∨ l.foldr max 0 = d := by
  intro l
  induction l with
  | nil => intro _; exact Or.inl rfl
  | cons x xs ih =>
    intro h
    have hx := h x (List.mem_cons_self x xs)
    have hxs := ih (fun y hy => h y (List.mem_cons_of_mem _ hy))
    subst hx
    rcases hxs with h0 | hd
    · rw [List.foldr_cons, h0]; exact Or.inr (Nat.max_zero x)
    · rw [List.foldr_cons, hd]; exact Or.inr (Nat.max_self x)

/-- The two parts of `analyze_conflict_shape`, stated over the second phase
of the analysis with the `current_level_lits` hypothesis supplied by
`analyzeConflictQueue_level`. -/
lemma analyzeConflictFinish_shape (s : CDCLSolver) (cc : List Int) (cur : List Nat)
    (hcur : ∀ v ∈ cur, ((s.var_info v).getD (0, none)).1 = s.decision_level) :
    (∀ l ∈ (analyzeConflictFinish s cc cur).1, l ∈ cc) ∧
    ((analyzeConflictFinish s cc cur).2 = 0 ∨
      (analyzeConflictFinish s cc cur).2 = s.decision_level) := by
  cases cur with
  | nil =>
    refine ⟨?_, Or.inl ?_⟩
    · intro l hl; simp [analyzeConflictFinish] at hl
    · simp [analyzeConflictFinish]
  | cons c0 crest =>
    constructor
    · intro l hl
      simp only [analyzeConflictFinish] at hl
      exact (List.mem_filter.1 hl).1
    · simp only [analyzeConflictFinish]
      split
      · apply foldr_max_of_all_eq
        intro x hx
        rcases List.mem_map.1 hx with ⟨v, hv, rfl⟩
        exact hcur v (List.mem_of_mem_filter hv)
      · exact Or.inl rfl

/-- Claim C5, counterexample: in the concrete conflict situation
`conflictState` (decision level 1, conflict clause `[-1, -3]`, all three
variables assigned at level 1), the claim predicts the learned clause
`{¬uip}` — a single literal, all other literals being reason-side literals of
levels strictly below 1, of which there are none — and backjump level 0.
The code instead returns the two-literal clause `[-1, -3]` and backjump
level 1, the conflicting decision level itself. -/
theorem analyze_conflict_counterexample :
    analyze_conflict 10 conflictState [-1, -3] = ([-1, -3], 1) ∧
    conflictState.decision_level = 1 ∧
    2 ≤ (analyze_conflict 10 conflictState [-1, -3]).1.length ∧
    (analyze_conflict 10 conflictState [-1, -3]).2 = conflictState.decision_level := by
  refine ⟨by decide, rfl, by decide, by decide⟩

/-- Claim C5, amended: `analyze_conflict` never adds the negated UIP nor any
reason-side literal — every literal of the clause it returns is a literal of
the conflict clause itself (the UIP variable's literals filtered out, line
203) — and its backjump level is 0 or the current decision level itself
(line 207 maximises recorded levels over collected *current-level* variables,
all of which carry the current decision level), never an intermediate level. -/
theorem analyze_conflict_shape (fuel : Nat) (s : CDCLSolver) (cc : List Int) :
    (∀ l ∈ (analyze_conflict fuel s cc).1, l ∈ cc) ∧
    ((analyze_conflict fuel s cc).2 = 0 ∨
      (analyze_conflict fuel s cc).2 = s.decision_level) := by
  have hlev := analyzeConflictQueue_level s fuel (cc.map Int.natAbs)
    ((cc.map Int.natAbs).foldl (fun st w => insert w st) ∅) []
    (by intro v hv; simp at hv)
  exact analyzeConflictFinish_shape s cc _ hlev

/-- Claim C5, witness for the amended theorem, instantiated at the concrete
conflict situation: the first returned literal `-1` is indeed a literal of
the conflict clause, and the returned backjump level equals the decision
level. -/
theorem analyze_conflict_shape_witness :
    (-1 : Int) ∈ ([-1, -3] : List Int) ∧
    ((analyze_conflict 10 conflictState [-1, -3]).2 = 0 ∨
      (analyze_conflict 10 conflictState [-1, -3]).2 = conflictState.decision_level) :=
  ⟨(analyze_conflict_shape 10 conflictState [-1, -3]).1 (-1) (by decide),
    (analyze_conflict_shape 10 conflictState [-1, -3]).2⟩

end ClaimC5

section ClaimC6

open CDCL

/-- Membership is preserved by `stableInsert`. -/
lemma mem_stableInsert {α : Type} (le : α → α → Bool) (a x : α) :
    ∀ (l : List α), x ∈ stableInsert le a l ↔ x = a ∨ x ∈ l := by
  intro l
  induction l with
  | nil => simp [stableInsert]
  | cons y ys ih =>
    simp only [stableInsert]
    split
    · simp [List.mem_cons]
    · simp only [List.mem_cons, ih]
      tauto

/-- Membership is preserved by `pySort`. -/
lemma mem_pySort {α : Type} (le : α → α → Bool) (x : α) :
    ∀ (l : List α), x ∈ pySort le l ↔ x ∈ l := by
  intro l
  induction l with
  | nil => simp [pySort]
  | cons y ys ih => simp [pySort, mem_stableInsert, ih]

/-- `select_variable` only returns variables whose positive literal is not an
assignment key (it picks from `unassigned`, line 227). -/
lemma select_variable_fresh (s : CDCLSolver) (v : Nat)
    (h : select_variable s = some v) : (v : Int) ∉ s.assignment := by
  unfold select_variable at h
  split at h
  · exact absurd h (by simp)
  · have hv := List.mem_of_mem_head? h
    rw [mem_pySort] at hv
    have := (List.mem_filter.1 hv).2
    simpa using this

/-- When the trail is at least as long as the assignment key list, the
`unit_propagation` loop guard is false and the call returns `None` with the
state untouched, whatever the fuel. -/
lemma unit_propagation_of_lockstep (s : CDCLSolver)
    (h : ¬ s.trail.length < s.assignment.length) :
    ∀ fuel, unit_propagation fuel s = some (none, s) := by
  intro fuel
  cases fuel with
  | zero => simp [unit_propagation, h]
  | succ n => simp [unit_propagation, h]

/-- Erasing the last element of a duplicate-free list truncates it. -/
lemma erase_last_nodup (l : List Int) (hnd : l.Nodup) (init : List Int) (a : Int)
    (hdecomp : l = init ++ [a]) : l.erase a = init := by
  subst hdecomp
  have ha : a ∉ init := by
    intro hmem
    exact (List.nodup_append.1 hnd).2.2 hmem (List.mem_singleton_self a)
  rw [List.erase_append_right _ ha, List.erase_cons_head, List.append_nil]

/-- The inner backtracking loop truncates both the trail and (under trail /
assignment coherence) the assignment key list to the checkpoint. -/
lemma popTrail_spec (lim : Nat) :
    ∀ (trail asg : List Int) (vi : Nat → Option (Nat × Option Nat)),
      asg = trail → trail.Nodup →
      (popTrail lim trail asg vi).1 = trail.take lim ∧
      (popTrail lim trail asg vi).2.1 = trail.take lim := by
  intro trail asg vi
  induction trail, asg, vi using popTrail.induct lim with
  | case1 trail asg vi hlt lit hlast ih =>
    intro hasg hnd
    have hne : trail ≠ [] := by
      intro he; rw [he] at hlt; simp at hlt
    have hlit : lit = trail.getLast hne := by
      have := List.getLast?_eq_getLast trail hne
      rw [hlast] at this
      exact Option.some.inj this
    have hdecomp : trail = trail.dropLast ++ [lit] := by
      rw [hlit]; exact (List.dropLast_append_getLast hne).symm
    have herase : asg.erase lit = trail.dropLast := by
      rw [hasg]; exact erase_last_nodup trail hnd _ _ hdecomp
    have hih := ih herase (List.Nodup.sublist (List.dropLast_sublist trail) hnd)
    have htake : List.take lim trail.dropLast = List.take lim trail := by
      rw [List.dropLast_eq_take, List.take_take,
        Nat.min_eq_left (Nat.le_sub_one_of_lt hlt)]
    rw [popTrail.eq_def, if_pos hlt, hlast]
    exact ⟨htake ▸ hih.1, htake ▸ hih.2⟩
  | case2 trail asg vi hlt hnone =>
    intro hasg hnd
    exfalso
    rw [List.getLast?_eq_none_iff] at hnone
    rw [hnone] at hlt
    simp at hlt
  | case3 trail asg vi hge =>
    intro hasg hnd
    rw [popTrail.eq_def, if_neg hge]
    have : trail.take lim = trail := List.take_of_length_le (Nat.le_of_not_lt hge)
    exact ⟨this.symm, by rw [hasg, this]⟩

/-- The backtracking loop preserves trail / assignment coherence. -/
lemma backtrackAux_coherent : ∀ (fuel : Nat) (s : CDCLSolver) (level : Nat),
    Coherent s → Coherent (backtrackAux fuel s level) := by
  intro fuel
  induction fuel with
  | zero => intro s level h; exact h
  | succ n ih =>
    intro s level h
    rw [backtrackAux]
    split
    · apply ih
      obtain ⟨hasg, hnd⟩ := h
      have hspec := popTrail_spec (s.trail_lim.headD 0) s.trail s.assignment s.var_info hasg hnd
      constructor
      · show (popTrail _ _ _ _).2.1 = (popTrail _ _ _ _).1
        rw [hspec.1, hspec.2]
      · show ((popTrail _ _ _ _).1).Nodup
        rw [hspec.1]
        exact List.Nodup.sublist (List.take_sublist _ _) hnd
    · exact h

/-- Every step the `cdcl` driver can take preserves trail / assignment
coherence.  The conflict step is vacuous: under coherence
`unit_propagation` cannot return a conflict clause. -/
lemma driverStep_coherent {s s' : CDCLSolver} (h : Coherent s) (hstep : DriverStep s s') :
    Coherent s' := by
  have hnoop := unit_propagation_of_lockstep s (by rw [h.1]; exact lt_irrefl _)
  cases hstep with
  | decision s1 f v hup hall hsel =>
    rw [hnoop f] at hup
    have hs1 : s1 = s := by
      have := Option.some.inj hup
      exact (Prod.mk.injEq _ _ _ _ ▸ this).2.symm
    rw [hs1] at hsel ⊢
    have hfresh : (v : Int) ∉ s.assignment := select_variable_fresh _ _ hsel
    obtain ⟨hasg, hnd⟩ := h
    constructor
    · show (if (v : Int) ∈ s.assignment then s.assignment else s.assignment ++ [(v : Int)])
        = s.trail ++ [(v : Int)]
      rw [if_neg hfresh, hasg]
    · show (s.trail ++ [(v : Int)]).Nodup
      rw [List.nodup_append]
      exact ⟨hnd, List.nodup_singleton _,
        fun x hx hx' => (hasg ▸ hfresh) ((List.mem_singleton.1 hx') ▸ hx)⟩
  | conflict s1 f afuel cc hup hdl =>
    rw [hnoop f] at hup
    simp at hup
  | backtrackStep level =>
    exact backtrackAux_coherent _ _ _ h

/-- A freshly parsed solver is coherent: trail and assignment are both empty. -/
lemma coherent_parse (input : List (List Int)) : Coherent (parse_dimacs input) :=
  ⟨rfl, List.nodup_nil⟩

/-- Claim C6 (confirmed): in every state the `cdcl` driver can reach from a
parsed input, the trail and the assignment key list are the *same* list (the
driver's only state changes are decisions, which append the literal to both,
and backtracks, which pop both in lockstep), so the `unit_propagation` loop
guard `len(trail) < len(assignment)` is always false: `unit_propagation`
always returns `None` immediately and leaves the whole solver state —
trail, assignment and watch index included — unchanged. -/
theorem cdcl_lockstep_up_noop (input : List (List Int)) (s : CDCLSolver)
    (h : Reachable input s) :
    s.trail.length = s.assignment.length ∧
    ∀ fuel, unit_propagation fuel s = some (none, s) := by
  have hc : Coherent s := by
    have h' : Relation.ReflTransGen DriverStep (parse_dimacs input) s := h
    clear h
    induction h' with
    | refl => exact coherent_parse input
    | tail hab hstep ih => exact driverStep_coherent ih hstep
  exact ⟨by rw [hc.1],
    unit_propagation_of_lockstep s (by rw [hc.1]; exact lt_irrefl _)⟩

/-- Claim C6, witness: the freshly parsed two-clause input is reachable (zero
steps) and `unit_propagation` with fuel 3 returns `None` on it unchanged. -/
theorem cdcl_lockstep_up_noop_witness :
    (parse_dimacs [[1], [-1]]).trail.length
      = (parse_dimacs [[1], [-1]]).assignment.length ∧
    unit_propagation 3 (parse_dimacs [[1], [-1]])
      = some (none, parse_dimacs [[1], [-1]]) := by
  have h := cdcl_lockstep_up_noop [[1], [-1]] (parse_dimacs [[1], [-1]])
    Relation.ReflTransGen.refl
  exact ⟨h.1, h.2 3⟩

end ClaimC6

section ClaimC9

open CDCL

/-- Full characterisation of `backtrack` to level 0 under the representation
invariants the driver maintains: the clause database, watch index and restart
threshold are untouched; the decision level drops to 0; trail and assignment
are truncated to the oldest (level-0) checkpoint — or left whole when there
is no decision.  `lims` is the checkpoint stack, newest first. -/
lemma backtrackAux_zero :
    ∀ (lims : List Nat) (s : CDCLSolver),
      s.trail_lim = lims →
      s.decision_level = lims.length →
      lims.Sorted (fun a b => b ≤ a) →
      (∀ l ∈ lims, l ≤ s.trail.length) →
      s.assignment = s.trail → s.trail.Nodup →
      (backtrackAux lims.length s 0).clauses = s.clauses ∧
      (backtrackAux lims.length s 0).learned_clauses = s.learned_clauses ∧
      (backtrackAux lims.length s 0).watch_list = s.watch_list ∧
      (backtrackAux lims.length s 0).restart_threshold = s.restart_threshold ∧
      (backtrackAux lims.length s 0).decision_level = 0 ∧
      (backtrackAux lims.length s 0).trail
        = s.trail.take (lims.getLastD s.trail.length) ∧
      (backtrackAux lims.length s 0).assignment
        = s.trail.take (lims.getLastD s.trail.length) := by
  intro lims
  induction lims with
  | nil =>
    intro s hlim hdl _ _ hasg hnd
    refine ⟨rfl, rfl, rfl, rfl, hdl, ?_, ?_⟩
    · show s.trail = s.trail.take s.trail.length
      rw [List.take_length]
    · show s.assignment = s.trail.take s.trail.length
      rw [List.take_length, hasg]
  | cons lim rest ih =>
    intro s hlim hdl hsort hbound hasg hnd
    have hlim0 : lim ≤ s.trail.length := hbound lim (hlim ▸ List.mem_cons_self lim rest)
    have hrest_le : ∀ l ∈ rest, l ≤ lim := (List.sorted_cons.1 hsort).1
    have hpop := popTrail_spec lim s.trail s.assignment s.var_info hasg hnd
    have hhead : s.trail_lim.headD 0 = lim := by rw [hlim]; rfl
    have hguard : (0 : Nat) < s.decision_level := by rw [hdl]; exact Nat.succ_pos _
    rw [show (lim :: rest).length = rest.length + 1 from rfl, backtrackAux, if_pos hguard,
      hhead]
    have htlen : (s.trail.take lim).length = lim := by
      rw [List.length_take]; exact Nat.min_eq_left hlim0
    have hih := ih
      { s with
        decision_level := s.decision_level - 1
        trail_lim := s.trail_lim.tail
        trail := (popTrail lim s.trail s.assignment s.var_info).1
        assignment := (popTrail lim s.trail s.assignment s.var_info).2.1
        var_info := (popTrail lim s.trail s.assignment s.var_info).2.2 }
      (by show s.trail_lim.tail = rest; rw [hlim]; rfl)
      (by show s.decision_level - 1 = rest.length; rw [hdl]; rfl)
      ((List.sorted_cons.1 hsort).2)
      (by
        intro l hl
        show l ≤ (popTrail lim s.trail s.assignment s.var_info).1.length
        rw [hpop.1, htlen]
        exact hrest_le l hl)
      (by
        show (popTrail lim s.trail s.assignment s.var_info).2.1
          = (popTrail lim s.trail s.assignment s.var_info).1
        rw [hpop.1, hpop.2])
      (by
        show ((popTrail lim s.trail s.assignment s.var_info).1).Nodup
        rw [hpop.1]
        exact List.Nodup.sublist (List.take_sublist _ _) hnd)
    refine ⟨hih.1, hih.2.1, hih.2.2.1, hih.2.2.2.1, hih.2.2.2.2.1, ?_, ?_⟩
    · rw [hih.2.2.2.2.2.1]
      show (popTrail _ s.trail s.assignment s.var_info).1.take _
        = s.trail.take ((lim :: rest).getLastD s.trail.length)
      rw [hpop.1]
      cases rest with
      | nil =>
        rw [htlen]
        show (s.trail.take lim).take lim = s.trail.take lim
        rw [List.take_take, Nat.min_self]
      | cons r rs =>
        have hgl : ∀ (d1 d2 : Nat), (r :: rs).getLastD d1 = (r :: rs).getLastD d2 := by
          intro d1 d2
          rw [List.getLastD_eq_getLast?, List.getLastD_eq_getLast?,
            List.getLast?_eq_getLast (r :: rs) (by simp)]
          rfl
        have hlast_mem : (r :: rs).getLastD ((s.trail.take lim).length) ∈ r :: rs := by
          rw [List.getLastD_eq_getLast?, List.getLast?_eq_getLast (r :: rs) (by simp)]
          exact List.getLast_mem _
        have hle : (r :: rs).getLastD ((s.trail.take lim).length) ≤ lim :=
          hrest_le _ hlast_mem
        rw [List.take_take, Nat.min_eq_left hle]
        show s.trail.take ((r :: rs).getLastD ((s.trail.take lim).length))
          = s.trail.take ((lim :: r :: rs).getLastD s.trail.length)
        rw [show (lim :: r :: rs).getLastD s.trail.length = (r :: rs).getLastD lim from rfl,
          hgl _ lim]
    · rw [hih.2.2.2.2.2.2]
      show (popTrail _ s.trail s.assignment s.var_info).1.take _
        = s.trail.take ((lim :: rest).getLastD s.trail.length)
      rw [hpop.1]
      cases rest with
      | nil =>
        rw [htlen]
        show (s.trail.take lim).take lim = s.trail.take lim
        rw [List.take_take, Nat.min_self]
      | cons r rs =>
        have hgl : ∀ (d1 d2 : Nat), (r :: rs).getLastD d1 = (r :: rs).getLastD d2 := by
          intro d1 d2
          rw [List.getLastD_eq_getLast?, List.getLastD_eq_getLast?,
            List.getLast?_eq_getLast (r :: rs) (by simp)]
          rfl
        have hlast_mem : (r :: rs).getLastD ((s.trail.take lim).length) ∈ r :: rs := by
          rw [List.getLastD_eq_getLast?, List.getLast?_eq_getLast (r :: rs) (by simp)]
          exact List.getLast_mem _
        have hle : (r :: rs).getLastD ((s.trail.take lim).length) ≤ lim :=
          hrest_le _ hlast_mem
        rw [List.take_take, Nat.min_eq_left hle]
        show s.trail.take ((r :: rs).getLastD ((s.trail.take lim).length))
          = s.trail.take ((lim :: r :: rs).getLastD s.trail.length)
        rw [show (lim :: r :: rs).getLastD s.trail.length = (r :: rs).getLastD lim from rfl,
          hgl _ lim]

/-- Claim C9 (confirmed): when the conflict count has reached the restart
threshold, the driver's restart fragment (lines 80-83) multiplies the
threshold by 1.5 and backtracks to level 0; the original clause list, the
learned-clause list and the watch index are unchanged, the decision level
drops to 0, and the trail and assignment are truncated exactly to the oldest
(level-0) checkpoint — so every level-0 trail assignment survives.  The
hypotheses are the driver's own representation invariants: the decision
level counts the checkpoint stack, checkpoints are monotone and within the
trail, and trail / assignment are coherent. -/
theorem cdcl_restart_frame (s : CDCLSolver)
    (htrig : s.restart_threshold ≤ (s.conflict_count : ℚ))
    (hdl : s.decision_level = s.trail_lim.length)
    (hsort : s.trail_lim.Sorted (fun a b => b ≤ a))
    (hbound : ∀ l ∈ s.trail_lim, l ≤ s.trail.length)
    (hasg : s.assignment = s.trail) (hnd : s.trail.Nodup) :
    (restartIfNeeded s).clauses = s.clauses ∧
    (restartIfNeeded s).learned_clauses = s.learned_clauses ∧
    (restartIfNeeded s).watch_list = s.watch_list ∧
    (restartIfNeeded s).decision_level = 0 ∧
    (restartIfNeeded s).trail = s.trail.take (s.trail_lim.getLastD s.trail.length) ∧
    (restartIfNeeded s).assignment = s.trail.take (s.trail_lim.getLastD s.trail.length) ∧
    (restartIfNeeded s).restart_threshold = s.restart_threshold * (3 / 2) := by
  have hkey := backtrackAux_zero s.trail_lim
    { s with restart_threshold := s.restart_threshold * (3 / 2) }
    rfl hdl hsort hbound hasg hnd
  have hunfold : restartIfNeeded s
      = backtrackAux s.trail_lim.length
        { s with restart_threshold := s.restart_threshold * (3 / 2) } 0 := by
    unfold restartIfNeeded backtrack
    rw [if_pos htrig]
    show backtrackAux s.decision_level _ 0 = backtrackAux s.trail_lim.length _ 0
    rw [hdl]
  rw [hunfold]
  exact ⟨hkey.1, hkey.2.1, hkey.2.2.1, hkey.2.2.2.2.1, hkey.2.2.2.2.2.1,
    hkey.2.2.2.2.2.2, hkey.2.2.2.1⟩

/-- Claim C9, witness: a concrete state at its restart point (threshold 100,
conflict count 100, one decision above a level-0 assignment).  The restart
keeps the clause database, truncates the trail to its level-0 prefix `[1]`,
resets the decision level, and grows the threshold to 150. -/
theorem cdcl_restart_frame_witness :
    (restartIfNeeded restartState).clauses = restartState.clauses ∧
    (restartIfNeeded restartState).learned_clauses = restartState.learned_clauses ∧
    (restartIfNeeded restartState).decision_level = 0 ∧
    (restartIfNeeded restartState).trail = [1] ∧
    (restartIfNeeded restartState).restart_threshold = 150 := by
  have h := cdcl_restart_frame restartState
    (by norm_num [restartState, conflictState])
    (by decide) (by decide) (by decide) rfl (by decide)
  refine ⟨h.1, h.2.1, h.2.2.2.1, ?_, ?_⟩
  · rw [h.2.2.2.2.1]; rfl
  · rw [h.2.2.2.2.2.2]
    norm_num [restartState, conflictState]

end ClaimC9


section ClaimC8

open CDCL

/-- The conflict-learning fragment stores the learned clause twice: lines 73
and 248 each append it. -/
lemma learnAndAdd_learned (s : CDCLSolver) (c : List Int) :
    (learnAndAdd s c).learned_clauses = s.learned_clauses ++ [c, c] := by
  unfold learnAndAdd add_clause
  match c with
  | [] => simp
  | [l1] => simp
  | l1 :: l2 :: rest => simp

/-- Folding the driver's conflict-learning fragment adds two clauses per
conflict. -/
lemma foldl_learnAndAdd_length :
    ∀ (conflicts : List (List Int)) (s : CDCLSolver),
      ((conflicts.foldl learnAndAdd s).learned_clauses).length
        = s.learned_clauses.length + 2 * conflicts.length := by
  intro conflicts
  induction conflicts with
  | nil => intro s; simp
  | cons c cs ih =>
    intro s
    rw [List.foldl_cons, ih, learnAndAdd_learned]
    simp [List.length_append, List.length_cons]
    omega

/-- Claim C8 (confirmed): every conflict handled at positive decision level
appends the learned clause to `learned_clauses` twice — once in the driver
(line 73) and once again inside `add_clause` (line 248) — so `n` handled
conflicts grow the learned list from empty to length `2n`; and the watch
index registers the combined-database index
`len(clauses) + len(learned_clauses) - 1` computed *after* both appends,
which is the position of the *second* copy (the last list entry), not of the
first. -/
theorem cdcl_conflict_double_append :
    (∀ (s : CDCLSolver) (c : List Int),
      (learnAndAdd s c).learned_clauses = s.learned_clauses ++ [c, c]) ∧
    (∀ (s : CDCLSolver) (c : List Int) (l1 l2 : Int) (rest : List Int),
      c = l1 :: l2 :: rest → l1 ≠ l2 →
      (learnAndAdd s c).watch_list l1
          = s.watch_list l1 ++ [s.clauses.length + s.learned_clauses.length + 1] ∧
        (learnAndAdd s c).watch_list l2
          = s.watch_list l2 ++ [s.clauses.length + s.learned_clauses.length + 1] ∧
        s.clauses.length + s.learned_clauses.length + 1
          = s.clauses.length + ((learnAndAdd s c).learned_clauses.length - 1)) ∧
    (∀ (s0 : CDCLSolver) (conflicts : List (List Int)),
      s0.learned_clauses = [] →
      ((conflicts.foldl learnAndAdd s0).learned_clauses).length
        = 2 * conflicts.length) := by
  refine ⟨learnAndAdd_learned, ?_, ?_⟩
  · intro s c l1 l2 rest hc hne
    subst hc
    have hne' : l2 ≠ l1 := fun h => hne h.symm
    refine ⟨?_, ?_, ?_⟩
    · simp [learnAndAdd, add_clause, addWatch, hne]
      omega
    · simp [learnAndAdd, add_clause, addWatch, hne']
      omega
    · rw [learnAndAdd_learned]
      simp [List.length_append]
      omega
  · intro s0 conflicts h0
    rw [foldl_learnAndAdd_length, h0]
    simp

/-- Claim C8, witness: starting from the freshly parsed two-clause database
(no learned clauses), one handled conflict with learned clause `[-1, -2]`
stores the clause twice and registers watch index 3 — the second copy's
position (originals occupy indices 0-1, the two copies 2-3) — on both
watched literals. -/
theorem cdcl_conflict_double_append_witness :
    (learnAndAdd (CDCL.parse_dimacs [[1, 2], [-1, 2]]) [-1, -2]).learned_clauses
      = [[-1, -2], [-1, -2]] ∧
    (learnAndAdd (CDCL.parse_dimacs [[1, 2], [-1, 2]]) [-1, -2]).watch_list (-2) = [3] ∧
    (([[ -1, -2]] : List (List Int)).foldl learnAndAdd
      (CDCL.parse_dimacs [[1, 2], [-1, 2]])).learned_clauses.length = 2 := by
  refine ⟨?_, ?_, ?_⟩
  · rw [cdcl_conflict_double_append.1 (CDCL.parse_dimacs [[1, 2], [-1, 2]]) [-1, -2]]
    rfl
  · rw [(cdcl_conflict_double_append.2.1 (CDCL.parse_dimacs [[1, 2], [-1, 2]])
      [-1, -2] (-1) (-2) [] rfl (by decide)).2.1]
    rfl
  · exact cdcl_conflict_double_append.2.2 (CDCL.parse_dimacs [[1, 2], [-1, 2]])
      [[ -1, -2]] rfl

end ClaimC8

section ClaimC10

/-- Claim C10 (confirmed): the Sudoku variable encoding
`v = row*N*N + col*N + num + 1` and the decoding
`num = (v-1) % N + 1`, `col = ((v-1) / N) % N`, `row = (v-1) / (N*N)` are
mutually inverse for every `N = k*k` and `row, col, num ∈ [0, N)`; decoding
recovers the row, the column, and the 1-based number `num + 1`. -/
theorem sudoku_encode_decode (k n row col num : Nat) (hn : n = k * k)
    (hrow : row < n) (hcol : col < n) (hnum : num < n) :
    Sudoku.decodeVar n (Sudoku.encodeVar n row col num) = (row, col, num + 1) := by
  have hpos : 0 < n := lt_of_le_of_lt (Nat.zero_le num) hnum
  have hx : row * n * n + col * n + num + 1 - 1 = num + (col + row * n) * n := by
    have : row * n * n + col * n + num = num + (col + row * n) * n := by ring
    omega
  unfold Sudoku.decodeVar Sudoku.encodeVar
  simp only [hx, Prod.mk.injEq]
  refine ⟨?_, ?_, ?_⟩
  · have hy : num + (col + row * n) * n = num + col * n + row * (n * n) := by ring
    rw [hy, Nat.add_mul_div_right _ _ (Nat.mul_pos hpos hpos)]
    have hcn : num + col * n < n * n := by
      have h1 : col + 1 ≤ n := hcol
      calc num + col * n < n + col * n := by omega
        _ = (col + 1) * n := by ring
        _ ≤ n * n := Nat.mul_le_mul_right n h1
    rw [Nat.div_eq_of_lt hcn, Nat.zero_add]
  · rw [Nat.add_mul_div_right _ _ hpos, Nat.div_eq_of_lt hnum, Nat.zero_add,
      Nat.add_mul_mod_self_right, Nat.mod_eq_of_lt hcol]
  · rw [Nat.add_mul_mod_self_right, Nat.mod_eq_of_lt hnum]

/-- Claim C10, witness: for the 4×4 grid (`k = 2`), encoding `(row, col,
num) = (3, 2, 1)` yields variable 58 and decoding 58 recovers `(3, 2, 2)`
(the 1-based number). -/
theorem sudoku_encode_decode_witness :
    Sudoku.encodeVar 4 3 2 1 = 58 ∧ Sudoku.decodeVar 4 58 = (3, 2, 2) := by
  refine ⟨by decide, ?_⟩
  have h := sudoku_encode_decode 2 4 3 2 1 rfl (by decide) (by decide) (by decide)
  have he : Sudoku.encodeVar 4 3 2 1 = 58 := by decide
  rw [he] at h
  exact h

end ClaimC10

section ClaimC7

open Resolution

/-- Once a round adds nothing new, the clause set is stationary forever. -/
lemma roundIter_stationary (cs : Finset Clause) (hsub : roundResolvents cs ⊆ cs) :
    ∀ n, roundIter n cs = cs := by
  intro n
  induction n with
  | zero => rfl
  | succ m ih =>
    show roundIter m (cs ∪ roundResolvents cs) = cs
    rw [Finset.union_eq_left.mpr hsub]
    exact ih

/-- Characterisation of the saturation loop's verdicts: a terminating run
returns UNSAT exactly when some round generates the empty clause, and SAT
exactly when some round is saturated (all its resolvents already present)
with no round ever generating the empty clause. -/
lemma resolutionLoop_verdicts :
    ∀ (fuel : Nat) (cs : Finset Clause) (b : Bool),
      resolutionLoop fuel cs = some b →
      ((b = false ↔ ∃ n, (∅ : Clause) ∈ roundResolvents (roundIter n cs)) ∧
       (b = true ↔ ∃ n, roundResolvents (roundIter n cs) ⊆ roundIter n cs ∧
          ∀ m, (∅ : Clause) ∉ roundResolvents (roundIter m cs))) := by
  intro fuel
  induction fuel with
  | zero => intro cs b h; simp [resolutionLoop] at h
  | succ f ih =>
    intro cs b h
    rw [resolutionLoop] at h
    by_cases h0 : (∅ : Clause) ∈ roundResolvents cs
    · rw [if_pos h0] at h
      have hb : b = false := (Option.some.inj h).symm
      subst hb
      refine ⟨iff_of_true rfl ⟨0, h0⟩, iff_of_false (by simp) ?_⟩
      rintro ⟨n, hsat, hall⟩
      exact hall 0 h0
    · rw [if_neg h0] at h
      by_cases h1 : roundResolvents cs ⊆ cs
      · rw [if_pos h1] at h
        have hb : b = true := (Option.some.inj h).symm
        subst hb
        have hstat := roundIter_stationary cs h1
        constructor
        · refine iff_of_false (by simp) ?_
          rintro ⟨n, hn⟩
          rw [hstat n] at hn
          exact h0 hn
        · refine iff_of_true rfl ⟨0, h1, ?_⟩
          intro m
          rw [hstat m]
          exact h0
      · rw [if_neg h1] at h
        have IH := ih (cs ∪ roundResolvents cs) b h
        have hshift : ∀ n, roundIter n (cs ∪ roundResolvents cs) = roundIter (n+1) cs :=
          fun n => rfl
        constructor
        · rw [IH.1]
          constructor
          · rintro ⟨n, hn⟩
            exact ⟨n+1, by rw [← hshift n]; exact hn⟩
          · rintro ⟨n, hn⟩
            cases n with
            | zero => exact absurd hn h0
            | succ m => exact ⟨m, by rw [hshift m]; exact hn⟩
        · rw [IH.2]
          constructor
          · rintro ⟨n, hsat, hall⟩
            refine ⟨n+1, by rw [← hshift n]; exact hsat, ?_⟩
            intro m
            cases m with
            | zero => exact h0
            | succ q => rw [← hshift q]; exact hall q
          · rintro ⟨n, hsat, hall⟩
            cases n with
            | zero => exact absurd hsat h1
            | succ q =>
              refine ⟨q, by rw [hshift q]; exact hsat, ?_⟩
              intro m
              rw [hshift m]
              exact hall (m+1)

/-- Claim C7 (confirmed): `resolution_solver`, seeded with the input clause
set (tautologies dropped, line 97), repeatedly forms all resolvents of all
pairs; a terminating run returns UNSAT (`False`) exactly when some round
generates the empty clause, and SAT (`True`) exactly when a full round
produces no clause outside the current set — and then no round ever
generates the empty clause. -/
theorem resolution_solver_verdicts (fuel : Nat) (input : List Clause) (b : Bool)
    (h : resolution_solver fuel input = some b) :
    (b = false ↔ ∃ n, (∅ : Clause) ∈ roundResolvents
        (roundIter n (input.filter (fun c => !(isTautology c))).toFinset)) ∧
    (b = true ↔ ∃ n, roundResolvents
          (roundIter n (input.filter (fun c => !(isTautology c))).toFinset)
        ⊆ roundIter n (input.filter (fun c => !(isTautology c))).toFinset ∧
      ∀ m, (∅ : Clause) ∉ roundResolvents
        (roundIter m (input.filter (fun c => !(isTautology c))).toFinset)) :=
  resolutionLoop_verdicts fuel _ b h

set_option maxHeartbeats 1000000 in
/-- A concrete run: on `{p}, {¬p}` the resolution solver answers UNSAT in
one round. -/
lemma resolution_two_units_run :
    Resolution.resolution_solver 1 [{⟨"1", false⟩}, {⟨"1", true⟩}] = some false := by
  decide

set_option maxHeartbeats 1000000 in
/-- Claim C7, witness: on the input `{p}, {¬p}` the solver answers UNSAT,
and the theorem instantiates to the fact that some round generates the empty
clause (round 0 already does). -/
theorem resolution_solver_verdicts_witness :
    ∃ n, (∅ : Resolution.Clause) ∈ Resolution.roundResolvents
      (Resolution.roundIter n
        (([{⟨"1", false⟩}, {⟨"1", true⟩}] : List Resolution.Clause).filter
          (fun c => !(Resolution.isTautology c))).toFinset) := by
  exact ((resolution_solver_verdicts 1 _ false resolution_two_units_run).1).mp rfl

end ClaimC7
